import Mathlib

/-!
Verification of the ShinRL discretized-MDP core (mountain-car environment).

Continuous physical quantities are embedded as rationals (`ℚ`), so every
arithmetic fact is exact; the spec's 1e-6 tolerances are implied by exact
equalities.  Code present under `src/` (`shinrl/envs/mountaincar/env.py`) is
embedded directly; the `calc` and `config` modules of the environment core
are not part of the excerpt, so their functions are modelled from the spec
(sections 4.1-4.6 and 7) and say so in their doc comments.
-/

/-- Observation mode tag (`obs_mode`): `tuple` | `image` (spec section 3). -/
inductive ObsMode where
  | tuple : ObsMode
  | image : ObsMode
deriving DecidableEq, Repr

/-- Action mode tag (`act_mode`): `discrete` | `continuous` (spec section 3). -/
inductive ActMode where
  | discrete : ActMode
  | continuous : ActMode
deriving DecidableEq, Repr

/-- The immutable mountain-car configuration record: physical bounds,
per-dimension resolutions, action resolution `dA`, force bound, gravity
constant and the two mode tags (spec section 3, `MountainCarConfig`). -/
structure MountainCarConfig where
  posMin : ℚ
  posMax : ℚ
  velMin : ℚ
  velMax : ℚ
  posRes : ℕ
  velRes : ℕ
  dA : ℕ
  forceMax : ℚ
  gravity : ℚ
  obsMode : ObsMode
  actMode : ActMode
deriving DecidableEq, Repr

/-- The number of discrete states, `dS = pos_res * vel_res` (env.py,
property `dS`). -/
def dS (c : MountainCarConfig) : ℕ := c.posRes * c.velRes

/-- Clip a value into the interval `[lo, hi]`. -/
def clip (v lo hi : ℚ) : ℚ := max lo (min hi v)

/-- Position bin width: `(pos_max - pos_min) / (pos_res - 1)`
(env.py `init_probs`, and spec section 4.1's `bin_width = (max - min)/(res - 1)`). -/
def posBinWidth (c : MountainCarConfig) : ℚ :=
  (c.posMax - c.posMin) / ((c.posRes : ℚ) - 1)

/-- Velocity bin width, mirroring `posBinWidth` on the velocity axis. -/
def velBinWidth (c : MountainCarConfig) : ℚ :=
  (c.velMax - c.velMin) / ((c.velRes : ℚ) - 1)

/-- Modelled from the spec (section 4.1, `encode_state`; the environment's
`calc` module is not in the excerpt): one dimension of the encoder -- clip
the value to `[lo, hi]`, take `floor((value - lo)/bin_width)` and clamp the
result to `[0, res-1]`. -/
def binIdx (lo hi bw : ℚ) (res : ℕ) (v : ℚ) : ℕ :=
  min (Int.toNat ⌊(clip v lo hi - lo) / bw⌋) (res - 1)

/-- Modelled from the spec (section 4.1, `encode_state`; `calc.pos_vel_to_state`
is not in the excerpt): clip each coordinate to its bounds, compute the
per-dimension bin index, and combine row-major (outer dimension = position,
inner = velocity) into one index in `[0, dS)`. -/
def pos_vel_to_state (c : MountainCarConfig) (pos vel : ℚ) : ℕ :=
  binIdx c.posMin c.posMax (posBinWidth c) c.posRes pos * c.velRes +
    binIdx c.velMin c.velMax (velBinWidth c) c.velRes vel

/-- Modelled from the spec (section 4.1, `decode_state`; `calc.state_to_pos_vel`
is not in the excerpt): inverse mixed-radix decomposition, each bin index
mapped to the bin center `min + bin_index * bin_width + bin_width/2`. -/
def state_to_pos_vel (c : MountainCarConfig) (s : ℕ) : ℚ × ℚ :=
  (c.posMin + ((s / c.velRes : ℕ) + 1/2) * posBinWidth c,
   c.velMin + ((s % c.velRes : ℕ) + 1/2) * velBinWidth c)

/-- Action bin width over `[-force_max, force_max]` with `dA` bins,
mirroring the state axes (spec section 4.1). -/
def actBinWidth (c : MountainCarConfig) : ℚ :=
  (c.forceMax - -c.forceMax) / ((c.dA : ℚ) - 1)

/-- Modelled from the spec (section 4.1; `calc.to_continuous_act` is not in
the excerpt): map a discrete action index to the center of its force bin in
`[-force_max, force_max]`. -/
def to_continuous_act (c : MountainCarConfig) (a : ℕ) : ℚ :=
  -c.forceMax + ((a : ℚ) + 1/2) * actBinWidth c

/-- Modelled from the spec (section 4.1; `calc.to_discrete_act` is not in
the excerpt): discretize a continuous force exactly as `encode_state`
discretizes a state coordinate. -/
def to_discrete_act (c : MountainCarConfig) (act : ℚ) : ℕ :=
  binIdx (-c.forceMax) c.forceMax (actBinWidth c) c.dA act

/-- Degree-6 Taylor polynomial of cosine over `ℚ`.  The float cosine of the
gravity term is not a rational function; this fixed polynomial stands in for
it -- every claim below is independent of the particular values it takes. -/
def cosQ (x : ℚ) : ℚ := 1 - x^2/2 + x^4/24 - x^6/720

/-- Modelled from the spec (section 4.2, Dynamics Stepper; the environment's
`calc.step` is not in the excerpt), following gym's MountainCar-v0 update as
env.py's docstring directs: `velocity += force - gravity * cos(3*position)`,
clip velocity, `position += velocity`, clip position, and if the position
clips at the lower bound with negative velocity, force the velocity to zero.
Split here into the clipped velocity update (`stepVel`), the clipped
position update (`stepPos`) and the combined step (`stepPosVel`).  This
definition is the clipped next velocity. -/
def stepVel (c : MountainCarConfig) (pos vel force : ℚ) : ℚ :=
  clip (vel + force - c.gravity * cosQ (3 * pos)) c.velMin c.velMax

/-- The clipped next position: `position += velocity`, hard-clipped to the
position bounds (spec section 4.2). -/
def stepPos (c : MountainCarConfig) (pos vel force : ℚ) : ℚ :=
  clip (pos + stepVel c pos vel force) c.posMin c.posMax

/-- One full dynamics step; when the position clips at the lower bound with
negative velocity, the velocity is forced to zero (spec section 4.2). -/
def stepPosVel (c : MountainCarConfig) (pos vel force : ℚ) : ℚ × ℚ :=
  if stepPos c pos vel force = c.posMin ∧ stepVel c pos vel force < 0
  then (stepPos c pos vel force, 0)
  else (stepPos c pos vel force, stepVel c pos vel force)

/-- Modelled from the spec (section 4.3, Transition Kernel Builder, default
nearest-cell policy; `calc.transition` is not in the excerpt): decode the
state, map the action to a force, run one dynamics step and encode the
continuous next state directly, yielding exactly one candidate next index
with probability `1`. -/
def transition (c : MountainCarConfig) (s a : ℕ) : List ℕ × List ℚ :=
  let pv := state_to_pos_vel c s
  let nxt := stepPosVel c pv.1 pv.2 (to_continuous_act c a)
  ([pos_vel_to_state c nxt.1 nxt.2], [1])

/-- Modelled from the spec (section 4.4, Reward Function; `calc.reward` is
not in the excerpt): `-1` per step until the goal (right position bound) is
reached, `0` there. -/
def reward (c : MountainCarConfig) (s a : ℕ) : ℚ :=
  if c.posMax ≤ (state_to_pos_vel c s).1 then 0 else -1

/-- Embedding of `numpy.arange(start, stop, step)` for a positive rational step:
`start, start+step, ...` with `⌈(stop-start)/step⌉` elements (env.py
`init_probs` line 42). -/
def arange (start stop step : ℚ) : List ℚ :=
  (List.range (Int.toNat ⌈(stop - start) / step⌉)).map
    (fun i : ℕ => start + (i : ℚ) * step)

/-- The deduplicated list of discrete indices obtained by encoding the
initial region samples: positions `arange(-0.6, -0.4, pos_step)` with
velocity `0` (env.py `init_probs` lines 42-46; `np.unique` deduplicates). -/
def initIdxs (c : MountainCarConfig) : List ℕ :=
  ((arange (-(3/5)) (-(2/5)) (posBinWidth c)).map
    (fun p => pos_vel_to_state c p 0)).dedup

/-- The initial state distribution (env.py `init_probs` lines 37-50): a
vector of length `dS` that is `1 / |initIdxs|` on each initial index and `0`
elsewhere (`np.put` into `np.zeros(dS)`). -/
def init_probs (c : MountainCarConfig) : List ℚ :=
  (List.range (dS c)).map
    (fun i => if i ∈ initIdxs c then 1 / ((initIdxs c).length : ℚ) else 0)

/-- Fallible rational division: `none` on a zero divisor, the way Python
raises `ZeroDivisionError`. -/
def divE (a b : ℚ) : Option ℚ := if b = 0 then none else some (a / b)

/-- The computation of `init_probs` with the division
`(pos_max - pos_min) / (pos_res - 1)` of
env.py line 39 made fallible: when `pos_res = 1` the divisor is zero and the
computation fails instead of returning a vector. -/
def init_probsE (c : MountainCarConfig) : Option (List ℚ) :=
  match divE (c.posMax - c.posMin) ((c.posRes : ℚ) - 1) with
  | none => none
  | some step =>
      some ((List.range (dS c)).map
        (fun i =>
          if i ∈ ((arange (-(3/5)) (-(2/5)) step).map
              (fun p => pos_vel_to_state c p 0)).dedup
          then 1 / ((((arange (-(3/5)) (-(2/5)) step).map
              (fun p => pos_vel_to_state c p 0)).dedup).length : ℚ)
          else 0))

/-- An observation is either the continuous coordinate tuple or a rasterized
image (spec section 4.5). -/
inductive Obs where
  | tuple : List ℚ → Obs
  | image : List (List ℚ) → Obs
deriving DecidableEq, Repr

/-- Modelled from the spec (section 4.5, tuple mode;
`calc.observation_tuple` is not in the excerpt): decode the state and return
its continuous coordinates directly. -/
def observation_tuple (c : MountainCarConfig) (s : ℕ) : List ℚ :=
  [(state_to_pos_vel c s).1, (state_to_pos_vel c s).2]

/-- Modelled from the spec (section 4.5, image mode; `calc.observation_image`
is not in the excerpt; the exact geometry is environment-specific): a
deterministic 28x28x1 rasterization placing a unit marker at the pixel given
by the normalized decoded position and velocity. -/
def observation_image (c : MountainCarConfig) (s : ℕ) : List (List ℚ) :=
  (List.range 28).map (fun row =>
    (List.range 28).map (fun col =>
      if row = min 27 (Int.toNat
            ⌊28 * ((state_to_pos_vel c s).2 - c.velMin) / (c.velMax - c.velMin)⌋) ∧
         col = min 27 (Int.toNat
            ⌊28 * ((state_to_pos_vel c s).1 - c.posMin) / (c.posMax - c.posMin)⌋)
      then 1 else 0))

/-- The observation dispatcher of env.py lines 86-90: `if obs_mode == tuple:
... elif obs_mode == image: ...` with no `else` branch, so an unmatched tag
would fall through to Python's implicit `None` -- hence the `Option` result.
The `ObsMode` enumeration has exactly the two recognized tags, so the
fall-through is unreachable. -/
def observation (c : MountainCarConfig) (s : ℕ) : Option Obs :=
  if c.obsMode = ObsMode.tuple then some (Obs.tuple (observation_tuple c s))
  else if c.obsMode = ObsMode.image then some (Obs.image (observation_image c s))
  else none

/-- A raw, not-yet-validated configuration: mode tags arrive as strings
(spec sections 3 and 7; the config module is not in the excerpt). -/
structure RawConfig where
  posMin : ℚ
  posMax : ℚ
  velMin : ℚ
  velMax : ℚ
  posRes : ℕ
  velRes : ℕ
  dA : ℕ
  forceMax : ℚ
  gravity : ℚ
  obsMode : String
  actMode : String
deriving DecidableEq, Repr

/-- Recognize an observation-mode tag; unrecognized tags yield `none`. -/
def parseObsMode (s : String) : Option ObsMode :=
  if s = "tuple" then some ObsMode.tuple
  else if s = "image" then some ObsMode.image
  else none

/-- Recognize an action-mode tag; unrecognized tags yield `none`. -/
def parseActMode (s : String) : Option ActMode :=
  if s = "discrete" then some ActMode.discrete
  else if s = "continuous" then some ActMode.continuous
  else none

/-- Modelled from the spec (section 7; the config module is not in the
excerpt): construction-time validation.  An unrecognized mode tag raises
`UnsupportedModeError`; a non-positive resolution or `dA`, inverted bounds
or a non-positive force bound raise `ConfigurationError`.  Success returns
the immutable configuration record. -/
def makeConfig (r : RawConfig) : Except String MountainCarConfig :=
  match parseObsMode r.obsMode, parseActMode r.actMode with
  | some om, some am =>
      if 1 ≤ r.posRes ∧ 1 ≤ r.velRes ∧ 1 ≤ r.dA ∧
         r.posMin < r.posMax ∧ r.velMin < r.velMax ∧ 0 < r.forceMax
      then Except.ok
        ⟨r.posMin, r.posMax, r.velMin, r.velMax, r.posRes, r.velRes, r.dA,
         r.forceMax, r.gravity, om, am⟩
      else Except.error "ConfigurationError"
  | _, _ => Except.error "UnsupportedModeError"

/-- The spec's concrete scenario configuration (section 8): `pos_res = 5`,
`vel_res = 3` (so `dS = 15`), `dA = 5`, mountain-car bounds and constants
from gym's MountainCar-v0. -/
def mcScenario : MountainCarConfig :=
  ⟨-(6/5), 3/5, -(7/100), 7/100, 5, 3, 5, 1/1000, 1/400, ObsMode.tuple,
   ActMode.discrete⟩

/-- The raw (unvalidated) form of `mcScenario`, with mode tags as strings. -/
def rawScenario : RawConfig :=
  ⟨-(6/5), 3/5, -(7/100), 7/100, 5, 3, 5, 1/1000, 1/400, "tuple", "discrete"⟩

/-- A raw configuration with an unrecognized observation-mode tag. -/
def rawBadMode : RawConfig :=
  ⟨-(6/5), 3/5, -(7/100), 7/100, 5, 3, 5, 1/1000, 1/400, "video", "discrete"⟩

/-- Variant of `mcScenario` with the degenerate resolution `pos_res = 1`, which the
construction-time constraint (resolution at least 1) permits. -/
def mcOneRes : MountainCarConfig :=
  ⟨-(6/5), 3/5, -(7/100), 7/100, 1, 3, 5, 1/1000, 1/400, ObsMode.tuple,
   ActMode.discrete⟩

section RoundTrip

/-- Floor of `k + 1/2` for a natural `k` is `k`. -/
lemma floor_add_half (k : ℕ) : ⌊(k : ℚ) + 1/2⌋ = (k : ℤ) := by
  rw [Int.floor_eq_iff]
  constructor
  · push_cast
    linarith
  · push_cast
    linarith

/-- One-dimensional round-trip: encoding the center of bin `k` recovers `k`
(for a well-formed axis: at least two grid points and `lo < hi`). -/
lemma binIdx_center (lo hi : ℚ) (res k : ℕ) (h2 : 2 ≤ res) (hlt : lo < hi)
    (hk : k < res) :
    binIdx lo hi ((hi - lo) / ((res : ℚ) - 1)) res
      (lo + ((k : ℚ) + 1/2) * ((hi - lo) / ((res : ℚ) - 1))) = k := by
  have hres1 : (1 : ℚ) ≤ (res : ℚ) - 1 := by
    have : (2 : ℚ) ≤ (res : ℚ) := by exact_mod_cast h2
    linarith
  have hresne : ((res : ℚ) - 1) ≠ 0 := by linarith
  set bw : ℚ := (hi - lo) / ((res : ℚ) - 1) with hbw_def
  have hbw_pos : 0 < bw := by
    apply div_pos (by linarith) (by linarith)
  have hmul : ((res : ℚ) - 1) * bw = hi - lo := by
    rw [hbw_def, mul_div_cancel₀ _ hresne]
  rcases Nat.lt_or_ge k (res - 1) with hcase | hcase
  · -- interior bin: no clipping occurs
    have hkq : (k : ℚ) + 1 ≤ (res : ℚ) - 1 := by
      have : (k : ℚ) + 1 ≤ ((res : ℚ) - 1) := by
        have hk' : k + 1 ≤ res - 1 := hcase
        have : ((k + 1 : ℕ) : ℚ) ≤ ((res - 1 : ℕ) : ℚ) := by exact_mod_cast hk'
        push_cast [Nat.cast_sub (by omega : 1 ≤ res)] at this
        linarith
      exact this
    have hlo : lo ≤ lo + ((k : ℚ) + 1/2) * bw := by nlinarith
    have hhi : lo + ((k : ℚ) + 1/2) * bw ≤ hi := by nlinarith
    have hclip : clip (lo + ((k : ℚ) + 1/2) * bw) lo hi
        = lo + ((k : ℚ) + 1/2) * bw := by
      unfold clip
      rw [min_eq_right hhi, max_eq_right hlo]
    unfold binIdx
    rw [hclip]
    have hdiv : (lo + ((k : ℚ) + 1/2) * bw - lo) / bw = (k : ℚ) + 1/2 := by
      field_simp
      ring
    rw [hdiv, floor_add_half, Int.toNat_natCast]
    exact min_eq_left (by omega)
  · -- last bin: the center exceeds `hi` and is clipped back to `hi`
    have hkeq : k = res - 1 := by omega
    have hkq : ((res : ℚ) - 1) < (k : ℚ) + 1/2 := by
      have : ((res - 1 : ℕ) : ℚ) = (res : ℚ) - 1 := by
        push_cast [Nat.cast_sub (by omega : 1 ≤ res)]
        ring
      rw [hkeq, this]
      linarith
    have hhi_le : hi ≤ lo + ((k : ℚ) + 1/2) * bw := by nlinarith
    have hclip : clip (lo + ((k : ℚ) + 1/2) * bw) lo hi = hi := by
      unfold clip
      rw [min_eq_left hhi_le, max_eq_right (le_of_lt hlt)]
    unfold binIdx
    rw [hclip]
    have hne : hi - lo ≠ 0 := sub_ne_zero.mpr (ne_of_gt hlt)
    have hdiv : (hi - lo) / bw = (res : ℚ) - 1 := by
      rw [hbw_def]
      field_simp
    rw [hdiv]
    have hfloor : ⌊(res : ℚ) - 1⌋ = (res : ℤ) - 1 := by
      rw [show ((res : ℚ) - 1) = (((res : ℤ) - 1 : ℤ) : ℚ) by push_cast; ring]
      exact Int.floor_intCast _
    rw [hfloor]
    have htn : Int.toNat ((res : ℤ) - 1) = res - 1 := by omega
    rw [htn, min_self]
    omega

/-- The encoder's output index is always in `[0, dS)` once both resolutions
are at least 1 (each clamped bin index is at most `res - 1`). -/
lemma pos_vel_to_state_lt (c : MountainCarConfig) (hp : 1 ≤ c.posRes)
    (hv : 1 ≤ c.velRes) (pos vel : ℚ) :
    pos_vel_to_state c pos vel < dS c := by
  unfold pos_vel_to_state dS
  have h1 : binIdx c.posMin c.posMax (posBinWidth c) c.posRes pos ≤ c.posRes - 1 :=
    min_le_right _ _
  have h2 : binIdx c.velMin c.velMax (velBinWidth c) c.velRes vel ≤ c.velRes - 1 :=
    min_le_right _ _
  have h3 := Nat.mul_le_mul_right c.velRes h1
  have h4 := Nat.sub_one_mul c.posRes c.velRes
  have h5 : c.velRes ≤ c.posRes * c.velRes := Nat.le_mul_of_pos_left _ (by omega)
  omega

end RoundTrip

/-- Claim C2: for every `i` in `[0, dS)` (over a well-formed configuration:
both resolutions at least 2 and non-degenerate bounds), encoding the decoded
continuous state of `i` yields `i` back: decode followed by encode is the
identity on the discrete grid. -/
theorem decode_encode_roundtrip (c : MountainCarConfig)
    (hp : 2 ≤ c.posRes) (hv : 2 ≤ c.velRes)
    (hpb : c.posMin < c.posMax) (hvb : c.velMin < c.velMax)
    (i : ℕ) (hi : i < dS c) :
    pos_vel_to_state c (state_to_pos_vel c i).1 (state_to_pos_vel c i).2 = i := by
  have hvpos : 0 < c.velRes := by omega
  have hdiv : i / c.velRes < c.posRes := by
    rw [Nat.div_lt_iff_lt_mul hvpos]
    calc i < dS c := hi
    _ = c.posRes * c.velRes := rfl
  have hmod : i % c.velRes < c.velRes := Nat.mod_lt _ hvpos
  unfold pos_vel_to_state state_to_pos_vel
  simp only
  rw [show posBinWidth c = (c.posMax - c.posMin) / ((c.posRes : ℚ) - 1) from rfl,
      show velBinWidth c = (c.velMax - c.velMin) / ((c.velRes : ℚ) - 1) from rfl]
  rw [binIdx_center c.posMin c.posMax c.posRes (i / c.velRes) hp hpb hdiv,
      binIdx_center c.velMin c.velMax c.velRes (i % c.velRes) hv hvb hmod]
  rw [Nat.mul_comm (i / c.velRes) c.velRes]
  exact Nat.div_add_mod i c.velRes

/-- Witness for C2: the spec's scenario configuration `pos_res = 5`,
`vel_res = 3` (`dS = 15`) round-trips index 7. -/
theorem decode_encode_roundtrip_witness :
    pos_vel_to_state mcScenario (state_to_pos_vel mcScenario 7).1
      (state_to_pos_vel mcScenario 7).2 = 7 :=
  decode_encode_roundtrip mcScenario (by decide) (by decide)
    (by norm_num [mcScenario]) (by norm_num [mcScenario]) 7 (by decide)

/-- Claim C1: for every state index in `[0, dS)` and action index in
`[0, dA)` (over a configuration with both resolutions at least 1),
`transition` returns a pair of equal-length sequences whose probabilities
are non-negative and sum to exactly 1 (hence within the 1e-6 tolerance),
and every candidate index lies in `[0, dS)`. -/
theorem transition_distribution_valid (c : MountainCarConfig)
    (hp : 1 ≤ c.posRes) (hv : 1 ≤ c.velRes) (s a : ℕ)
    (hs : s < dS c) (ha : a < c.dA) :
    (transition c s a).1.length = (transition c s a).2.length ∧
    (∀ p ∈ (transition c s a).2, 0 ≤ p) ∧
    (transition c s a).2.sum = 1 ∧
    ∀ i ∈ (transition c s a).1, i < dS c := by
  refine ⟨rfl, ?_, by simp [transition], ?_⟩
  · intro p hmem
    simp only [transition, List.mem_singleton] at hmem
    rw [hmem]
    norm_num
  · intro i hmem
    simp only [transition, List.mem_singleton] at hmem
    rw [hmem]
    exact pos_vel_to_state_lt c hp hv _ _

/-- Witness for C1 at the spec's scenario configuration, `(s, a) = (7, 0)`. -/
theorem transition_distribution_valid_witness :
    (transition mcScenario 7 0).1.length = (transition mcScenario 7 0).2.length ∧
    (∀ p ∈ (transition mcScenario 7 0).2, 0 ≤ p) ∧
    (transition mcScenario 7 0).2.sum = 1 ∧
    ∀ i ∈ (transition mcScenario 7 0).1, i < dS mcScenario :=
  transition_distribution_valid mcScenario (by decide) (by decide) 7 0
    (by decide) (by decide)

/-- Claim C3: under the (default, and only modelled) nearest-cell
discretization policy, `transition` returns exactly one candidate next-state
index, and its probability equals 1. -/
theorem transition_nearest_cell_singleton (c : MountainCarConfig) (s a : ℕ) :
    (transition c s a).1.length = 1 ∧ (transition c s a).2 = [1] :=
  ⟨rfl, rfl⟩

/-- Claim C4: when the position clips at the lower bound the resulting
velocity is never negative; concretely, for the scenario configuration with
position bound `-1.2`, stepping the continuous state `(-1.2, -0.02)` under
any of its five actions yields next velocity exactly `0`. -/
theorem boundary_clip_velocity_zero :
    (∀ (c : MountainCarConfig) (pos vel force : ℚ),
      (stepPosVel c pos vel force).1 = c.posMin →
      0 ≤ (stepPosVel c pos vel force).2) ∧
    ∀ a : ℕ, a < 5 →
      (stepPosVel mcScenario (-(6/5)) (-(1/50))
          (to_continuous_act mcScenario a)).2 = 0 := by
  constructor
  · intro c pos vel force h
    unfold stepPosVel at h ⊢
    split_ifs at h ⊢ with hcond
    · norm_num
    · push_neg at hcond
      exact hcond h
  · intro a ha
    interval_cases a <;>
      norm_num [stepPosVel, stepPos, stepVel, clip, cosQ, to_continuous_act,
        actBinWidth, mcScenario, min_def, max_def]

/-- Witness for C4: the scenario instantiated at action `0`. -/
theorem boundary_clip_velocity_zero_witness :
    (stepPosVel mcScenario (-(6/5)) (-(1/50))
        (to_continuous_act mcScenario 0)).2 = 0 :=
  boundary_clip_velocity_zero.2 0 (by norm_num)

/-- Claim C7: for a configuration with `dA = 5` (and a positive force
bound), converting each discrete action in `[0, 5)` to a continuous action
and back yields it again: the action mapping is a section. -/
theorem act_roundtrip (c : MountainCarConfig) (hdA : c.dA = 5)
    (hf : 0 < c.forceMax) (a : ℕ) (ha : a < 5) :
    to_discrete_act c (to_continuous_act c a) = a := by
  unfold to_discrete_act to_continuous_act
  rw [show actBinWidth c = (c.forceMax - -c.forceMax) / ((c.dA : ℚ) - 1) from rfl]
  exact binIdx_center (-c.forceMax) c.forceMax c.dA a (by omega) (by linarith)
    (by omega)

/-- Witness for C7 at the scenario configuration (`dA = 5`), action `2`. -/
theorem act_roundtrip_witness :
    to_discrete_act mcScenario (to_continuous_act mcScenario 2) = 2 :=
  act_roundtrip mcScenario rfl (by norm_num [mcScenario]) 2 (by norm_num)

/-- Claim C9: `transition`, `reward` and `observation` are deterministic
pure functions: two calls with identical configuration and index inputs
return identical outputs (there is no hidden state in the embedding, just
as env.py delegates to pure `calc` functions). -/
theorem transition_reward_observation_deterministic
    (c c' : MountainCarConfig) (s s' a a' : ℕ)
    (hc : c = c') (hs : s = s') (ha : a = a') :
    transition c s a = transition c' s' a' ∧
    reward c s a = reward c' s' a' ∧
    observation c s = observation c' s' := by
  subst hc
  subst hs
  subst ha
  exact ⟨rfl, rfl, rfl⟩

/-- Witness for C9 at the scenario configuration, `(s, a) = (7, 0)`. -/
theorem transition_reward_observation_deterministic_witness :
    transition mcScenario 7 0 = transition mcScenario 7 0 ∧
    reward mcScenario 7 0 = reward mcScenario 7 0 ∧
    observation mcScenario 7 = observation mcScenario 7 :=
  transition_reward_observation_deterministic mcScenario mcScenario 7 7 0 0
    rfl rfl rfl

/-- Summing a function mapped over `List.range` is a `Finset.range` sum. -/
lemma sum_map_range (n : ℕ) (f : ℕ → ℚ) :
    ((List.range n).map f).sum = ∑ i ∈ Finset.range n, f i := by
  induction n with
  | zero => simp
  | succ m ih =>
      rw [List.range_succ, List.map_append, List.sum_append,
        Finset.sum_range_succ, ih]
      simp

/-- A uniform indicator vector over a duplicate-free, in-range, nonempty
index list sums to 1. -/
lemma sum_indicator_eq_one (n : ℕ) (L : List ℕ) (hnd : L.Nodup)
    (hsub : ∀ i ∈ L, i < n) (hne : L ≠ []) :
    ((List.range n).map
      (fun i => if i ∈ L then 1 / (L.length : ℚ) else 0)).sum = 1 := by
  rw [sum_map_range]
  have hsubF : L.toFinset ⊆ Finset.range n := by
    intro i hi
    rw [List.mem_toFinset] at hi
    exact Finset.mem_range.mpr (hsub i hi)
  have hmem : ∀ i, (if i ∈ L then 1 / (L.length : ℚ) else 0)
      = if i ∈ L.toFinset then 1 / (L.length : ℚ) else 0 := by
    intro i
    simp [List.mem_toFinset]
  simp_rw [hmem]
  rw [Finset.sum_ite_mem, Finset.inter_eq_right.mpr hsubF, Finset.sum_const,
    List.toFinset_card_of_nodup hnd, nsmul_eq_mul]
  have hlen : (L.length : ℚ) ≠ 0 := by
    have h0 : L.length ≠ 0 := fun h0 => hne (List.length_eq_zero.mp h0)
    exact_mod_cast h0
  field_simp

/-- An `arange` over a span/step ratio that is positive is nonempty. -/
lemma arange_ne_nil (start stop step : ℚ)
    (h : 0 < (stop - start) / step) : arange start stop step ≠ [] := by
  unfold arange
  intro hnil
  rw [List.map_eq_nil_iff, List.range_eq_nil] at hnil
  have hceil := Int.ceil_pos.mpr h
  omega

/-- The initial-region sample list is nonempty once the position axis is
well-formed, so at least one initial index exists. -/
lemma initIdxs_ne_nil (c : MountainCarConfig) (hp : 2 ≤ c.posRes)
    (hpb : c.posMin < c.posMax) : initIdxs c ≠ [] := by
  have hbw : 0 < posBinWidth c := by
    apply div_pos (by linarith)
    have h2 : (2 : ℚ) ≤ (c.posRes : ℚ) := by exact_mod_cast hp
    linarith
  have hpos : (0 : ℚ) < (-(2/5) - -(3/5)) / posBinWidth c :=
    div_pos (by norm_num) hbw
  intro hnil
  unfold initIdxs at hnil
  rw [List.dedup_eq_nil, List.map_eq_nil_iff] at hnil
  exact arange_ne_nil _ _ _ hpos hnil

/-- Every initial index is a valid state index. -/
lemma initIdxs_lt_dS (c : MountainCarConfig) (hp : 1 ≤ c.posRes)
    (hv : 1 ≤ c.velRes) : ∀ i ∈ initIdxs c, i < dS c := by
  intro i hi
  unfold initIdxs at hi
  rw [List.mem_dedup, List.mem_map] at hi
  obtain ⟨p, -, rfl⟩ := hi
  exact pos_vel_to_state_lt c hp hv _ _

/-- Claim C5: the initial distribution is a length-`dS` vector summing to
exactly 1 (hence within the 1e-6 tolerance); each deduplicated index
obtained by encoding an initial-region sample (positions from the initial
position range, velocity 0) carries probability `1/(number of unique such
indices)` and every other index carries 0. -/
theorem init_probs_valid (c : MountainCarConfig)
    (hp : 2 ≤ c.posRes) (hv : 1 ≤ c.velRes) (hpb : c.posMin < c.posMax) :
    (init_probs c).length = dS c ∧
    (init_probs c).sum = 1 ∧
    ∀ i, i < dS c →
      (init_probs c).getD i 0 =
        if i ∈ initIdxs c then 1 / ((initIdxs c).length : ℚ) else 0 := by
  refine ⟨by simp [init_probs], ?_, ?_⟩
  · exact sum_indicator_eq_one (dS c) (initIdxs c) (List.nodup_dedup _)
      (initIdxs_lt_dS c (by omega) hv) (initIdxs_ne_nil c hp hpb)
  · intro i hi
    unfold init_probs
    rw [List.getD_eq_getElem?_getD, List.getElem?_map, List.getElem?_range hi]
    simp

/-- Witness for C5 at the spec's scenario configuration. -/
theorem init_probs_valid_witness :
    (init_probs mcScenario).length = dS mcScenario ∧
    (init_probs mcScenario).sum = 1 ∧
    ∀ i, i < dS mcScenario →
      (init_probs mcScenario).getD i 0 =
        if i ∈ initIdxs mcScenario
        then 1 / ((initIdxs mcScenario).length : ℚ) else 0 :=
  init_probs_valid mcScenario (by decide) (by decide) (by norm_num [mcScenario])

/-- Claim C6: any configuration that passes construction-time validation
satisfies `dS = pos_res * vel_res` with `dS` and `dA` both at least 1. -/
theorem dS_product_and_positive (r : RawConfig) (c : MountainCarConfig)
    (h : makeConfig r = Except.ok c) :
    dS c = c.posRes * c.velRes ∧ 1 ≤ dS c ∧ 1 ≤ c.dA := by
  refine ⟨rfl, ?_⟩
  unfold makeConfig at h
  split at h
  · split_ifs at h with hcond
    · obtain ⟨h1, h2, h3, -⟩ := hcond
      injection h with h'
      subst h'
      exact ⟨by simpa [dS] using Nat.mul_le_mul h1 h2, h3⟩
  · exact Except.noConfusion h

/-- Witness for C6: the scenario raw configuration validates to
`mcScenario`. -/
theorem dS_product_and_positive_witness :
    dS mcScenario = mcScenario.posRes * mcScenario.velRes ∧
    1 ≤ dS mcScenario ∧ 1 ≤ mcScenario.dA :=
  dS_product_and_positive rawScenario mcScenario
    (by norm_num [makeConfig, parseObsMode, parseActMode, rawScenario,
      mcScenario])

/-- Claim C8: a mode tag outside the recognized enumerated set is rejected
at construction time with `UnsupportedModeError` (never a silent no-op),
and for every constructed configuration `observation` returns an actual
observation -- the `None` fall-through of env.py's `if/elif` dispatch is
unreachable because the recognized tags are exhaustive. -/
theorem unsupported_mode_rejected :
    (∀ r : RawConfig,
      parseObsMode r.obsMode = none ∨ parseActMode r.actMode = none →
      makeConfig r = Except.error "UnsupportedModeError") ∧
    ∀ (c : MountainCarConfig) (s : ℕ), (observation c s).isSome = true := by
  constructor
  · intro r hr
    unfold makeConfig
    cases ho : parseObsMode r.obsMode with
    | none =>
        cases ha : parseActMode r.actMode with
        | none => rfl
        | some am => rfl
    | some om =>
        cases ha : parseActMode r.actMode with
        | none => rfl
        | some am =>
            rw [ho, ha] at hr
            rcases hr with hr | hr <;> exact Option.noConfusion hr
  · intro c s
    cases hm : c.obsMode <;> simp [observation, hm]

/-- Witness for C8: a raw configuration with the unrecognized observation
mode tag `"video"` is rejected. -/
theorem unsupported_mode_rejected_witness :
    makeConfig rawBadMode = Except.error "UnsupportedModeError" :=
  unsupported_mode_rejected.1 rawBadMode
    (Or.inl (by simp [parseObsMode, rawBadMode]))

/-- Claim C10: computing the initial distribution requires `pos_res >= 2`:
with `pos_res = 1` the step `(pos_max - pos_min)/(pos_res - 1)` divides by
zero and the computation fails instead of returning a vector, while under
`pos_res >= 2` the division is well-defined and the computation totals to
`init_probs`. -/
theorem init_probs_requires_posRes_ge_two (c : MountainCarConfig) :
    (c.posRes = 1 → init_probsE c = none) ∧
    (2 ≤ c.posRes → init_probsE c = some (init_probs c)) := by
  constructor
  · intro h1
    unfold init_probsE divE
    rw [h1]
    norm_num
  · intro h2
    have hne : ((c.posRes : ℚ) - 1) ≠ 0 := by
      have h2q : (2 : ℚ) ≤ (c.posRes : ℚ) := by exact_mod_cast h2
      linarith
    unfold init_probsE divE
    rw [if_neg hne]
    rfl

/-- Witness for C10: the degenerate `pos_res = 1` configuration makes the
initial-distribution computation fail. -/
theorem init_probs_requires_posRes_ge_two_witness :
    init_probsE mcOneRes = none :=
  (init_probs_requires_posRes_ge_two mcOneRes).1 rfl
